import Mathlib

/-!
Verification of the w3e faucet backend's claim-eligibility, claim-execution,
claim-history and auth-nonce logic, as a shallow embedding of the TypeScript
source.  Timestamps are `Int` (JS numbers), on-chain values are `Nat`
(uint256), JS `Map`s are function maps, and the external collaborators
(JSON-RPC contract reads, transaction submission, signature recovery,
environment variables) are explicit parameters.
-/

/-- Model of JS `String.prototype.toLowerCase()` (addresses are ASCII hex). -/
def jsToLowerCase (s : String) : String := ⟨s.data.map Char.toLower⟩

/-- Hex digit test used by the address regex `[a-fA-F0-9]`. -/
def isHexDigitChar (c : Char) : Bool :=
  c.isDigit || ('a' ≤ c && c ≤ 'f') || ('A' ≤ c && c ≤ 'F')

/-- Model of the address check `/^0x[a-fA-F0-9]{40}$/` used by
`ServerlessClaimDataService.validateAddress`, and of `ethers.isAddress` on
plain hex addresses. -/
def isHexAddress (s : String) : Bool :=
  match s.data with
  | '0' :: 'x' :: rest => rest.length = 40 && rest.all isHexDigitChar
  | _ => false

/-- The zero-address sentinel used for native ETH. -/
def zeroAddress : String := "0x0000000000000000000000000000000000000000"

/-- Token registry record: `{ symbol, name, amount, decimals }`. -/
structure TokenInfo where
  symbol : String
  name : String
  amount : String
  decimals : Nat
deriving DecidableEq

/-- `ClaimHistoryEntry` of the shared `ClaimDataService`
(src/src/middleware/auth.ts). -/
structure ClaimHistoryEntry where
  timestamp : Int
  tokenAddress : String
  amount : String
  txHash : String
deriving DecidableEq

/-- The `type` discriminator `'ETH' | 'TOKEN'` of the serverless claim
entries (src/api/claimData.ts). -/
inductive ClaimType
  | ETH
  | TOKEN
deriving DecidableEq

/-- `ClaimHistoryEntry` of the serverless `ServerlessClaimDataService`
(src/api/claimData.ts); it carries the extra `type` field. -/
structure ServerlessClaimEntry where
  timestamp : Int
  tokenAddress : String
  amount : String
  txHash : String
  type : ClaimType
deriving DecidableEq

/-- Read-only view of the faucet contract consulted by the services:
`blacklisted`, `lastEthClaimTime`, `lastClaimTime`, and `supportedTokens`
returning `(amount, cooldown, active)`.  On-chain uint256 values are `Nat`. -/
structure FaucetContractState where
  blacklisted : String → Bool
  lastEthClaimTime : String → Nat
  lastClaimTime : String → String → Nat
  supportedTokens : String → Nat × Nat × Bool

/-- Result shape `{ canClaim: boolean; remainingTime?: number }`. -/
structure ClaimCheck where
  canClaim : Bool
  remainingTime : Option Int
deriving DecidableEq

namespace BlockchainService

/-- `BlockchainService.canClaimEth` (src/src/services/blockchain.ts):
blacklist check, zero-sentinel check, then 24h-cooldown arithmetic on
`now = Math.floor(Date.now() / 1000)`. -/
def canClaimEth (chain : FaucetContractState) (now : Int) (address : String) :
    ClaimCheck :=
  if chain.blacklisted address then ⟨false, none⟩
  else
    let lastClaimTime : Nat := chain.lastEthClaimTime address
    let cooldownPeriod : Int := 24 * 60 * 60
    if lastClaimTime = 0 then ⟨true, none⟩
    else
      let timeSinceLastClaim : Int := now - lastClaimTime
      if timeSinceLastClaim ≥ cooldownPeriod then ⟨true, none⟩
      else ⟨false, some (cooldownPeriod - timeSinceLastClaim)⟩

/-- `BlockchainService.canClaimToken` (src/src/services/blockchain.ts):
blacklist check, `active` flag check, zero-sentinel check, then per-token
cooldown arithmetic. -/
def canClaimToken (chain : FaucetContractState) (now : Int)
    (address tokenAddress : String) : ClaimCheck :=
  if chain.blacklisted address then ⟨false, none⟩
  else
    let tokenInfo := chain.supportedTokens tokenAddress
    if !tokenInfo.2.2 then ⟨false, none⟩
    else
      let lastClaimTime : Nat := chain.lastClaimTime address tokenAddress
      let cooldownPeriod : Int := tokenInfo.2.1
      if lastClaimTime = 0 then ⟨true, none⟩
      else
        let timeSinceLastClaim : Int := now - lastClaimTime
        if timeSinceLastClaim ≥ cooldownPeriod then ⟨true, none⟩
        else ⟨false, some (cooldownPeriod - timeSinceLastClaim)⟩

end BlockchainService

namespace ServerlessBlockchainService

/-- `ServerlessBlockchainService.canClaimEth` (serverless blockchain
service): no blacklist consultation and no zero-sentinel check, only the
24h-cooldown arithmetic. -/
def canClaimEth (chain : FaucetContractState) (now : Int) (address : String) :
    ClaimCheck :=
  let lastClaimTime : Nat := chain.lastEthClaimTime address
  let cooldownPeriod : Int := 24 * 60 * 60
  let timeSinceLastClaim : Int := now - lastClaimTime
  if timeSinceLastClaim ≥ cooldownPeriod then ⟨true, none⟩
  else ⟨false, some (cooldownPeriod - timeSinceLastClaim)⟩

/-- `ServerlessBlockchainService.canClaimToken` (serverless blockchain
service): no blacklist and no `active` check, per-token cooldown only. -/
def canClaimToken (chain : FaucetContractState) (now : Int)
    (address tokenAddress : String) : ClaimCheck :=
  let lastClaimTime : Nat := chain.lastClaimTime address tokenAddress
  let cooldownPeriod : Int := (chain.supportedTokens tokenAddress).2.1
  let timeSinceLastClaim : Int := now - lastClaimTime
  if timeSinceLastClaim ≥ cooldownPeriod then ⟨true, none⟩
  else ⟨false, some (cooldownPeriod - timeSinceLastClaim)⟩

end ServerlessBlockchainService

/-- Contract state for concrete tests: everything blacklisted, every
address last claimed ETH at second 1. -/
def chainAllBlacklisted : FaucetContractState :=
  ⟨fun _ => true, fun _ => 1, fun _ _ => 0, fun _ => (0, 0, false)⟩

/-- C2, counterexample.  The claim says blacklisted addresses get
`canClaim = false` in every service variant, but
`ServerlessBlockchainService.canClaimEth` never consults the blacklist: a
blacklisted address whose cooldown has elapsed gets `canClaim = true`. -/
theorem c2_counterexample :
    chainAllBlacklisted.blacklisted "0xaaaaaaaaaaaaaaaaaaaaaaaaaaaaaaaaaaaaaaaa" = true ∧
    ServerlessBlockchainService.canClaimEth chainAllBlacklisted 1000000
      "0xaaaaaaaaaaaaaaaaaaaaaaaaaaaaaaaaaaaaaaaa" = ⟨true, none⟩ := by
  constructor
  · rfl
  · decide

/-- C2, amended.  In the `BlockchainService` variant, a blacklisted address
always gets `{ canClaim: false }` with the remaining-time field absent, from
both `canClaimEth` and `canClaimToken`; the serverless eligibility checks do
not consult the blacklist at all. -/
theorem c2_blacklisted_never_eligible (chain : FaucetContractState)
    (now : Int) (address tokenAddress : String)
    (h : chain.blacklisted address = true) :
    BlockchainService.canClaimEth chain now address = ⟨false, none⟩ ∧
    BlockchainService.canClaimToken chain now address tokenAddress =
      ⟨false, none⟩ := by
  constructor <;> simp [BlockchainService.canClaimEth,
    BlockchainService.canClaimToken, h]

/-- Witness for `c2_blacklisted_never_eligible` at a concrete blacklisted
address. -/
theorem c2_blacklisted_never_eligible_witness :
    chainAllBlacklisted.blacklisted "0xbb" = true ∧
    BlockchainService.canClaimEth chainAllBlacklisted 500 "0xbb" =
      ⟨false, none⟩ := by
  refine ⟨rfl, ?_⟩
  exact (c2_blacklisted_never_eligible chainAllBlacklisted 500 "0xbb" "0xcc"
    rfl).1

/-- Contract state for the C3 witness: nobody blacklisted, ETH last claimed
at second 13601. -/
def chainC3 : FaucetContractState :=
  ⟨fun _ => false, fun _ => 13601, fun _ _ => 0, fun _ => (0, 0, false)⟩

/-- C3.  For a non-blacklisted address with a recorded (nonzero) last ETH
claim exactly `cooldownSeconds - 1 = 86399` seconds before `now`, both
eligibility checkers return `canClaim = false` with one remaining second. -/
theorem c3_cooldown_boundary (chain : FaucetContractState) (now : Int)
    (address : String) (hb : chain.blacklisted address = false)
    (hpos : 0 < chain.lastEthClaimTime address)
    (hlast : (chain.lastEthClaimTime address : Int) = now - 86399) :
    BlockchainService.canClaimEth chain now address = ⟨false, some 1⟩ ∧
    ServerlessBlockchainService.canClaimEth chain now address =
      ⟨false, some 1⟩ := by
  have hne : chain.lastEthClaimTime address ≠ 0 := Nat.pos_iff_ne_zero.mp hpos
  constructor
  · simp only [BlockchainService.canClaimEth, hb, hne, hlast]
    norm_num
  · simp only [ServerlessBlockchainService.canClaimEth, hlast]
    norm_num

/-- Witness for `c3_cooldown_boundary`: last claim at 13601, now 100000. -/
theorem c3_cooldown_boundary_witness :
    chainC3.blacklisted "0xdd" = false ∧ 0 < chainC3.lastEthClaimTime "0xdd" ∧
    (chainC3.lastEthClaimTime "0xdd" : Int) = 100000 - 86399 ∧
    BlockchainService.canClaimEth chainC3 100000 "0xdd" = ⟨false, some 1⟩ := by
  refine ⟨rfl, by decide, by decide, ?_⟩
  exact (c3_cooldown_boundary chainC3 100000 "0xdd" rfl (by decide)
    (by decide)).1

/-- State owned by the shared `ClaimDataService`
(src/src/middleware/auth.ts): the claim-history map and the token
registry.  JS `Map` absence is conflated with the empty list, matching the
`get(key) || []` read. -/
structure ClaimStore where
  claimHistory : String → List ClaimHistoryEntry
  tokenRegistry : String → Option TokenInfo

/-- State owned by `ServerlessClaimDataService` (src/api/claimData.ts). -/
structure ServerlessClaimStore where
  claimHistory : String → List ServerlessClaimEntry
  tokenRegistry : String → Option TokenInfo

namespace ClaimDataService

/-- `ClaimDataService.addClaim`: push the claim onto the list keyed by the
lowercased address (creating it if absent). -/
def addClaim (st : ClaimStore) (userAddress : String)
    (claim : ClaimHistoryEntry) : ClaimStore :=
  let userKey := jsToLowerCase userAddress
  { st with claimHistory := fun k =>
      if k = userKey then st.claimHistory k ++ [claim] else st.claimHistory k }

/-- `ClaimDataService.getUserClaims`: read the list keyed by the lowercased
address, defaulting to `[]`. -/
def getUserClaims (st : ClaimStore) (userAddress : String) :
    List ClaimHistoryEntry :=
  st.claimHistory (jsToLowerCase userAddress)

/-- `ClaimDataService.addToken`: `tokenRegistry.set(address, tokenInfo)` —
the key is stored exactly as given. -/
def addToken (st : ClaimStore) (address : String) (tokenInfo : TokenInfo) :
    ClaimStore :=
  { st with tokenRegistry := fun k =>
      if k = address then some tokenInfo else st.tokenRegistry k }

/-- `ClaimDataService.getToken`: `tokenRegistry.get(address)` — an exact-key
lookup with no case normalization. -/
def getToken (st : ClaimStore) (address : String) : Option TokenInfo :=
  st.tokenRegistry address

end ClaimDataService

namespace ServerlessClaimDataService

/-- `ServerlessClaimDataService.addClaim` (identical logic to the shared
service, over entries carrying a `type`). -/
def addClaim (st : ServerlessClaimStore) (userAddress : String)
    (claim : ServerlessClaimEntry) : ServerlessClaimStore :=
  let userKey := jsToLowerCase userAddress
  { st with claimHistory := fun k =>
      if k = userKey then st.claimHistory k ++ [claim] else st.claimHistory k }

/-- `ServerlessClaimDataService.getUserClaims`. -/
def getUserClaims (st : ServerlessClaimStore) (userAddress : String) :
    List ServerlessClaimEntry :=
  st.claimHistory (jsToLowerCase userAddress)

/-- `ServerlessClaimDataService.getToken`: lowercases the address before the
registry lookup. -/
def getToken (st : ServerlessClaimStore) (address : String) :
    Option TokenInfo :=
  st.tokenRegistry (jsToLowerCase address)

/-- `ServerlessClaimDataService.validateAddress`:
`/^0x[a-fA-F0-9]{40}$/.test(address)`. -/
def validateAddress (address : String) : Bool := isHexAddress address

/-- Stats shape returned by `ServerlessClaimDataService.getUserStats`. -/
structure UserStats where
  totalClaims : Nat
  ethClaims : Nat
  tokenClaims : Nat
  lastClaimTime : Option Int
deriving DecidableEq

/-- `ServerlessClaimDataService.getUserStats`: counts of ETH-typed and
TOKEN-typed claims and `Math.max` over the timestamps of a non-empty claim
list (`undefined` when empty). -/
def getUserStats (st : ServerlessClaimStore) (userAddress : String) :
    UserStats :=
  let userClaims := getUserClaims st userAddress
  let ethClaims :=
    (userClaims.filter fun c => decide (c.type = ClaimType.ETH)).length
  let tokenClaims :=
    (userClaims.filter fun c => decide (c.type = ClaimType.TOKEN)).length
  let lastClaimTime : Option Int :=
    if 0 < userClaims.length then (userClaims.map fun c => c.timestamp).max?
    else none
  ⟨userClaims.length, ethClaims, tokenClaims, lastClaimTime⟩

end ServerlessClaimDataService

/-- C9.  `addClaim` appends the record as the last element of the list
keyed by the lowercased address and changes nothing else: every other
history key and the whole token registry are untouched, in both the shared
and the serverless service. -/
theorem c9_addClaim_appends_and_frames :
    (∀ (st : ClaimStore) (a : String) (c : ClaimHistoryEntry),
      (ClaimDataService.addClaim st a c).claimHistory (jsToLowerCase a) =
        st.claimHistory (jsToLowerCase a) ++ [c] ∧
      (∀ k, k ≠ jsToLowerCase a →
        (ClaimDataService.addClaim st a c).claimHistory k =
          st.claimHistory k) ∧
      ∀ k, (ClaimDataService.addClaim st a c).tokenRegistry k =
        st.tokenRegistry k) ∧
    ∀ (st : ServerlessClaimStore) (a : String) (c : ServerlessClaimEntry),
      (ServerlessClaimDataService.addClaim st a c).claimHistory
          (jsToLowerCase a) =
        st.claimHistory (jsToLowerCase a) ++ [c] ∧
      (∀ k, k ≠ jsToLowerCase a →
        (ServerlessClaimDataService.addClaim st a c).claimHistory k =
          st.claimHistory k) ∧
      ∀ k, (ServerlessClaimDataService.addClaim st a c).tokenRegistry k =
        st.tokenRegistry k := by
  constructor
  · intro st a c
    refine ⟨by simp [ClaimDataService.addClaim], fun k hk => ?_, fun k => rfl⟩
    simp [ClaimDataService.addClaim, hk]
  · intro st a c
    refine ⟨by simp [ServerlessClaimDataService.addClaim], fun k hk => ?_,
      fun k => rfl⟩
    simp [ServerlessClaimDataService.addClaim, hk]

/-- A small concrete shared store for witnesses: one USDT-style token under
a lowercased key, no claims. -/
def claimStoreW : ClaimStore :=
  ClaimDataService.addToken ⟨fun _ => [], fun _ => none⟩
    (jsToLowerCase "0xd82183033422079e6281f350566Da971c13Cb1e7")
    ⟨"USDT", "Tether USD", "100", 6⟩

/-- Witness for `c9_addClaim_appends_and_frames`: appending a claim for a
mixed-case address writes the lowercased key and leaves another key and the
registry alone. -/
theorem c9_addClaim_appends_and_frames_witness :
    (ClaimDataService.addClaim claimStoreW "0xAB"
        ⟨1000, zeroAddress, "0.1", "0xh1"⟩).claimHistory
      (jsToLowerCase "0xAB") = [⟨1000, zeroAddress, "0.1", "0xh1"⟩] ∧
    ("0xcd" ≠ jsToLowerCase "0xAB" ∧
      (ClaimDataService.addClaim claimStoreW "0xAB"
          ⟨1000, zeroAddress, "0.1", "0xh1"⟩).claimHistory "0xcd" = []) ∧
    (ClaimDataService.addClaim claimStoreW "0xAB"
        ⟨1000, zeroAddress, "0.1", "0xh1"⟩).tokenRegistry
      (jsToLowerCase "0xd82183033422079e6281f350566Da971c13Cb1e7") =
      some ⟨"USDT", "Tether USD", "100", 6⟩ := by
  refine ⟨?_, ⟨by decide, ?_⟩, ?_⟩
  · exact (c9_addClaim_appends_and_frames.1 claimStoreW "0xAB"
      ⟨1000, zeroAddress, "0.1", "0xh1"⟩).1
  · exact (c9_addClaim_appends_and_frames.1 claimStoreW "0xAB"
      ⟨1000, zeroAddress, "0.1", "0xh1"⟩).2.1 "0xcd" (by decide)
  · exact (c9_addClaim_appends_and_frames.1 claimStoreW "0xAB"
      ⟨1000, zeroAddress, "0.1", "0xh1"⟩).2.2 _

/-- `List.foldl max` over `Int` dominates its seed and every element, and
is one of them. -/
theorem foldl_max_spec (as : List Int) (a : Int) :
    (as.foldl max a ∈ a :: as) ∧ a ≤ as.foldl max a ∧
      ∀ x ∈ as, x ≤ as.foldl max a := by
  induction as generalizing a with
  | nil => simp
  | cons b bs ih =>
    obtain ⟨hmem, hseed, hall⟩ := ih (max a b)
    refine ⟨?_, ?_, ?_⟩
    · rw [List.foldl_cons]
      rcases List.mem_cons.mp hmem with h | h
      · rw [h]
        rcases max_choice a b with hm | hm
        · rw [hm]; exact List.mem_cons_self _ _
        · rw [hm]; exact List.mem_cons_of_mem _ (List.mem_cons_self _ _)
      · exact List.mem_cons_of_mem _ (List.mem_cons_of_mem _ h)
    · exact le_trans (le_max_left a b) hseed
    · intro x hx
      rcases List.mem_cons.mp hx with rfl | hx
      · exact le_trans (le_max_right a x) hseed
      · exact hall x hx

/-- Counting ETH-typed and TOKEN-typed entries partitions a claim list. -/
theorem length_filter_claimType (l : List ServerlessClaimEntry) :
    (l.filter fun c => decide (c.type = ClaimType.ETH)).length +
      (l.filter fun c => decide (c.type = ClaimType.TOKEN)).length =
      l.length := by
  induction l with
  | nil => rfl
  | cons c cs ih =>
    cases h : c.type <;> simp [List.filter_cons, h] <;> omega

/-- C10.  `getUserStats` returns `totalClaims = ethClaims + tokenClaims`,
and `lastClaimTime` is the maximum stored timestamp when the address has
claims and absent when it has none. -/
theorem c10_getUserStats (st : ServerlessClaimStore) (a : String) :
    (ServerlessClaimDataService.getUserStats st a).totalClaims =
      (ServerlessClaimDataService.getUserStats st a).ethClaims +
        (ServerlessClaimDataService.getUserStats st a).tokenClaims ∧
    (ServerlessClaimDataService.getUserClaims st a = [] →
      (ServerlessClaimDataService.getUserStats st a).lastClaimTime = none) ∧
    (ServerlessClaimDataService.getUserClaims st a ≠ [] →
      ∃ m, (ServerlessClaimDataService.getUserStats st a).lastClaimTime =
          some m ∧
        m ∈ (ServerlessClaimDataService.getUserClaims st a).map
          (fun c => c.timestamp) ∧
        ∀ t ∈ (ServerlessClaimDataService.getUserClaims st a).map
          (fun c => c.timestamp), t ≤ m) := by
  refine ⟨?_, ?_, ?_⟩
  · simp [ServerlessClaimDataService.getUserStats,
      (length_filter_claimType (ServerlessClaimDataService.getUserClaims st a)).symm]
  · intro h
    simp [ServerlessClaimDataService.getUserStats, h]
  · intro h
    match hc : ServerlessClaimDataService.getUserClaims st a with
    | [] => exact absurd hc h
    | c :: cs =>
      obtain ⟨hmem, hseed, hall⟩ :=
        foldl_max_spec (cs.map fun x => x.timestamp) c.timestamp
      refine ⟨(cs.map fun x => x.timestamp).foldl max c.timestamp, ?_, ?_, ?_⟩
      · simp [ServerlessClaimDataService.getUserStats, hc, List.max?]
      · simpa using hmem
      · intro t ht
        rw [List.map_cons] at ht
        rcases List.mem_cons.mp ht with rfl | ht
        · exact hseed
        · exact hall t ht

/-- A concrete serverless store for witnesses: address `0xab` holds one ETH
claim at `1000` and one token claim at `5000`. -/
def serverlessStoreW : ServerlessClaimStore :=
  ⟨fun k => if k = "0xab" then
      [⟨1000, zeroAddress, "0.1", "0xh1", ClaimType.ETH⟩,
       ⟨5000, "0xt", "10", "0xh2", ClaimType.TOKEN⟩]
    else [], fun _ => none⟩

/-- Witness for `c10_getUserStats` on `serverlessStoreW`. -/
theorem c10_getUserStats_witness :
    ServerlessClaimDataService.getUserClaims serverlessStoreW "0xAB" ≠ [] ∧
    ∃ m, (ServerlessClaimDataService.getUserStats serverlessStoreW
        "0xAB").lastClaimTime = some m ∧
      m ∈ (ServerlessClaimDataService.getUserClaims serverlessStoreW
        "0xAB").map (fun c => c.timestamp) ∧
      ∀ t ∈ (ServerlessClaimDataService.getUserClaims serverlessStoreW
        "0xAB").map (fun c => c.timestamp), t ≤ m := by
  refine ⟨by decide, ?_⟩
  exact (c10_getUserStats serverlessStoreW "0xAB").2.2 (by decide)

/-- C5, counterexample.  `ClaimDataService.getToken` looks up the exact key
with no case normalization, so on the registry as the faucet routes build it
(keys lowercased by the caller) the mixed-case spelling of the same USDT
address misses while the lowercase spelling hits: the two case-variants do
not return the same record. -/
theorem c5_counterexample :
    jsToLowerCase "0xd82183033422079e6281f350566Da971c13Cb1e7" =
      jsToLowerCase "0xd82183033422079e6281f350566da971c13cb1e7" ∧
    ClaimDataService.getToken claimStoreW
      "0xd82183033422079e6281f350566da971c13cb1e7" =
      some ⟨"USDT", "Tether USD", "100", 6⟩ ∧
    ClaimDataService.getToken claimStoreW
      "0xd82183033422079e6281f350566Da971c13Cb1e7" = none := by
  refine ⟨by decide, by decide, by decide⟩

/-- C5, amended.  Only `ServerlessClaimDataService.getToken` is
case-insensitive on the token address: it lowercases before the lookup, so
any two case-variants of an address return the same record.
`ClaimDataService.getToken` is an exact-key lookup. -/
theorem c5_serverless_getToken_case_insensitive (st : ServerlessClaimStore)
    (a b : String) (h : jsToLowerCase a = jsToLowerCase b) :
    ServerlessClaimDataService.getToken st a =
      ServerlessClaimDataService.getToken st b := by
  simp [ServerlessClaimDataService.getToken, h]

/-- A serverless store holding the Sepolia LINK token under its lowercased
address, as `ServerlessClaimDataService` populates its registry. -/
def serverlessRegistryW : ServerlessClaimStore :=
  ⟨fun _ => [], fun k =>
    if k = jsToLowerCase "0x779877A7B0D9E8603169DdbD7836e478b4624789" then
      some ⟨"LINK", "Chainlink Token", "10", 18⟩
    else none⟩

/-- Witness for `c5_serverless_getToken_case_insensitive` on the two case
spellings of the LINK address. -/
theorem c5_serverless_getToken_case_insensitive_witness :
    jsToLowerCase "0x779877A7B0D9E8603169DdbD7836e478b4624789" =
      jsToLowerCase "0x779877a7b0d9e8603169ddbd7836e478b4624789" ∧
    ServerlessClaimDataService.getToken serverlessRegistryW
      "0x779877A7B0D9E8603169DdbD7836e478b4624789" =
      ServerlessClaimDataService.getToken serverlessRegistryW
      "0x779877a7b0d9e8603169ddbd7836e478b4624789" := by
  refine ⟨by decide, ?_⟩
  exact c5_serverless_getToken_case_insensitive serverlessRegistryW
    "0x779877A7B0D9E8603169DdbD7836e478b4624789"
    "0x779877a7b0d9e8603169ddbd7836e478b4624789" (by decide)

/-- A key-value environment source, modelling `process.env`. -/
def EnvSource : Type := String → Option String

/-- Model of `process.env[key] || defaultVal`: JS `||` falls back on a
missing variable and on the empty string. -/
def envOr (env : EnvSource) (key defaultVal : String) : String :=
  match env key with
  | some v => if v = "" then defaultVal else v
  | none => defaultVal

/-- JS truthiness of `process.env[key]` as used by `validateEnvironment`'s
`!process.env[varName]` filter. -/
def envTruthy (env : EnvSource) (key : String) : Bool :=
  match env key with
  | some v => v ≠ ""
  | none => false

/-- The serverless `config` object (src/unnamed/part_002): every value is
defaulted, never rejected. -/
structure ServerlessConfig where
  sepoliaRpcUrl : String
  privateKey : String
  faucetContractAddress : String
  ethAmount : String
  cooldownPeriod : String
  corsOrigin : String
deriving DecidableEq

/-- Loading the serverless config: `process.env[...] || default` for every
field, with the signing key and the contract address defaulting to the
empty string. -/
def serverlessConfig (env : EnvSource) : ServerlessConfig :=
  ⟨envOr env "SEPOLIA_RPC_URL" "https://sepolia.infura.io/v3/your-key",
   envOr env "PRIVATE_KEY" "",
   envOr env "FAUCET_CONTRACT_ADDRESS" "",
   envOr env "ETH_AMOUNT" "0.1",
   envOr env "COOLDOWN_PERIOD" "86400",
   envOr env "CORS_ORIGIN" "*"⟩

/-- `validateEnvironment` (src/unnamed/part_002): reports whether the three
required variables are set, without stopping anything. -/
def validateEnvironment (env : EnvSource) : Bool × List String :=
  let missingVars :=
    ["SEPOLIA_RPC_URL", "PRIVATE_KEY", "FAUCET_CONTRACT_ADDRESS"].filter
      fun varName => !envTruthy env varName
  (missingVars.isEmpty, missingVars)

/-- Startup of the serverless app (`createServerlessApp`,
src/api/server.ts): plugin and route registration reads only `CORS_ORIGIN`
(with a default) and performs no required-variable check, so it cannot fail
on absent configuration.  The `Except` codomain records that the code has
no failure path at startup. -/
def createServerlessApp (env : EnvSource) : Except String String :=
  Except.ok (envOr env "CORS_ORIGIN" "*")

/-- The empty environment: every variable absent. -/
def emptyEnv : EnvSource := fun _ => none

/-- C7, counterexample.  With every required variable absent, serverless
startup still succeeds, the config substitutes the empty string for the
signing key and the contract address, and only `validateEnvironment`
(surfaced through the health endpoint) reports the problem. -/
theorem c7_counterexample :
    createServerlessApp emptyEnv = Except.ok "*" ∧
    (serverlessConfig emptyEnv).privateKey = "" ∧
    (serverlessConfig emptyEnv).faucetContractAddress = "" ∧
    validateEnvironment emptyEnv =
      (false, ["SEPOLIA_RPC_URL", "PRIVATE_KEY", "FAUCET_CONTRACT_ADDRESS"]) := by
  refine ⟨rfl, rfl, rfl, by decide⟩

/-- C7, amended.  Serverless startup never fails, whatever the environment;
when the signing key is absent the loaded config carries the empty string
and `validateEnvironment` reports the variable as missing (claim requests
then fail at request time, when the per-request blockchain service is
constructed from the empty credential). -/
theorem c7_startup_never_fails (env : EnvSource) :
    (∃ app, createServerlessApp env = Except.ok app) ∧
    (env "PRIVATE_KEY" = none →
      (serverlessConfig env).privateKey = "" ∧
      (validateEnvironment env).1 = false ∧
      "PRIVATE_KEY" ∈ (validateEnvironment env).2) := by
  refine ⟨⟨envOr env "CORS_ORIGIN" "*", rfl⟩, fun h => ⟨?_, ?_, ?_⟩⟩
  · simp [serverlessConfig, envOr, h]
  · simp only [validateEnvironment, envTruthy, h, List.filter]
    split <;> simp
  · simp only [validateEnvironment, envTruthy, h, List.filter]
    split <;> simp

/-- Witness for `c7_startup_never_fails` at the empty environment. -/
theorem c7_startup_never_fails_witness :
    emptyEnv "PRIVATE_KEY" = none ∧
    (serverlessConfig emptyEnv).privateKey = "" ∧
    (validateEnvironment emptyEnv).1 = false ∧
    "PRIVATE_KEY" ∈ (validateEnvironment emptyEnv).2 :=
  ⟨rfl, (c7_startup_never_fails emptyEnv).2 rfl⟩

/-- Stored nonce record `{ nonce, timestamp }` (src/src/routes/auth.ts). -/
structure NonceData where
  nonce : String
  timestamp : Int
deriving DecidableEq

/-- The module-level `nonces` map, keyed by lowercased address. -/
def NonceStore : Type := String → Option NonceData

/-- Outcome of `POST /auth/verify`, one constructor per response branch. -/
inductive VerifyResult
  | invalidAddress
  | missingData
  | invalidNonce
  | expiredNonce
  | invalidSignature
  | ok (address : String) (admin : Bool)
deriving DecidableEq

/-- `isAdmin` (src/src/middleware/auth.ts): lowercased comparison with the
configured admin address. -/
def isAdmin (adminAddress address : String) : Bool :=
  decide (jsToLowerCase address = jsToLowerCase adminAddress)

/-- The message a wallet signs, as built by both auth routes. -/
def nonceMessage (nonce : String) : String :=
  "Please sign this message to authenticate with the faucet: " ++ nonce

/-- `nonces.delete(address.toLowerCase())`. -/
def deleteNonce (store : NonceStore) (key : String) : NonceStore :=
  fun k => if k = key then none else store k

/-- `POST /auth/verify` (src/src/routes/auth.ts): address validation,
missing-field check, nonce lookup and match, 5-minute expiry, signature
recovery (`recover` models `ethers.verifyMessage`), then consumption of the
nonce.  Returns the response branch and the updated nonce store. -/
def verifyHandler (recover : String → String → String) (adminAddress : String)
    (store : NonceStore) (now : Int) (address signature nonce : String) :
    VerifyResult × NonceStore :=
  if isHexAddress address = false then (VerifyResult.invalidAddress, store)
  else if signature = "" ∨ nonce = "" then (VerifyResult.missingData, store)
  else
    match store (jsToLowerCase address) with
    | none => (VerifyResult.invalidNonce, store)
    | some storedData =>
      if storedData.nonce ≠ nonce then (VerifyResult.invalidNonce, store)
      else if 300000 < now - storedData.timestamp then
        (VerifyResult.expiredNonce, deleteNonce store (jsToLowerCase address))
      else if jsToLowerCase (recover (nonceMessage nonce) signature) ≠
          jsToLowerCase address then
        (VerifyResult.invalidSignature, store)
      else
        (VerifyResult.ok address (isAdmin adminAddress address),
          deleteNonce store (jsToLowerCase address))

/-- One verify request of a later trace. -/
structure VerifyReq where
  now : Int
  address : String
  signature : String
  nonce : String

/-- Run a sequence of verify requests, threading the nonce store. -/
def runVerifies (recover : String → String → String) (adminAddress : String)
    (reqs : List VerifyReq) (store : NonceStore) : NonceStore :=
  reqs.foldl (fun st r =>
    (verifyHandler recover adminAddress st r.now r.address r.signature
      r.nonce).2) store

/-- `deleteNonce` only removes entries. -/
theorem deleteNonce_le (store : NonceStore) (key k : String) :
    deleteNonce store key k = store k ∨ deleteNonce store key k = none := by
  unfold deleteNonce
  split
  · exact Or.inr rfl
  · exact Or.inl rfl

/-- The verify handler never adds or replaces a nonce: each key is left
alone or deleted. -/
theorem verifyHandler_store_le (recover : String → String → String)
    (adminAddress : String) (store : NonceStore) (now : Int)
    (address signature nonce k : String) :
    (verifyHandler recover adminAddress store now address signature
        nonce).2 k = store k ∨
    (verifyHandler recover adminAddress store now address signature
        nonce).2 k = none := by
  unfold verifyHandler
  repeat' split
  all_goals first
    | exact Or.inl rfl
    | exact deleteNonce_le store _ k

/-- A key with no stored nonce still has none after any verify trace. -/
theorem runVerifies_none (recover : String → String → String)
    (adminAddress : String) (reqs : List VerifyReq) (store : NonceStore)
    (k : String) (h : store k = none) :
    runVerifies recover adminAddress reqs store k = none := by
  induction reqs generalizing store with
  | nil => exact h
  | cons r rs ih =>
    apply ih
    show (verifyHandler recover adminAddress store r.now r.address
      r.signature r.nonce).2 k = none
    rcases verifyHandler_store_le recover adminAddress store r.now r.address
      r.signature r.nonce k with h1 | h1 <;> rw [h1]
    exact h

/-- Dissection of a successful verify: the inputs passed every check and
the nonce entry for the address was deleted. -/
theorem verify_ok_spec (recover : String → String → String)
    (adminAddress : String) (store : NonceStore) (now : Int)
    (a s n a' : String) (adm : Bool)
    (hsucc : (verifyHandler recover adminAddress store now a s n).1 =
      VerifyResult.ok a' adm) :
    isHexAddress a = true ∧ s ≠ "" ∧ n ≠ "" ∧
    (verifyHandler recover adminAddress store now a s n).2
      (jsToLowerCase a) = none := by
  by_cases h1 : isHexAddress a = false
  · exfalso
    unfold verifyHandler at hsucc
    simp [h1] at hsucc
  by_cases h2 : s = "" ∨ n = ""
  · exfalso
    unfold verifyHandler at hsucc
    simp [h1, h2] at hsucc
  cases hst : store (jsToLowerCase a) with
  | none =>
    exfalso
    unfold verifyHandler at hsucc
    simp [h1, h2, hst] at hsucc
  | some d =>
    by_cases h4 : d.nonce ≠ n
    · exfalso
      unfold verifyHandler at hsucc
      simp [h1, h2, hst, h4] at hsucc
    by_cases h5 : 300000 < now - d.timestamp
    · exfalso
      unfold verifyHandler at hsucc
      simp [h1, h2, hst, h4, h5] at hsucc
    by_cases h6 : jsToLowerCase (recover (nonceMessage n) s) ≠ jsToLowerCase a
    · exfalso
      unfold verifyHandler at hsucc
      simp [h1, h2, hst, h4, h5, h6] at hsucc
    refine ⟨by simpa using h1, fun hs => h2 (Or.inl hs),
      fun hn => h2 (Or.inr hn), ?_⟩
    unfold verifyHandler
    simp [h1, h2, hst, h4, h5, h6, deleteNonce]

/-- A verify presenting a nonce for an address with no stored entry is
rejected as an invalid nonce. -/
theorem verify_none_invalidNonce (recover : String → String → String)
    (adminAddress : String) (store : NonceStore) (now : Int)
    (a s n : String) (hv : isHexAddress a = true) (hs : s ≠ "") (hn : n ≠ "")
    (hnone : store (jsToLowerCase a) = none) :
    (verifyHandler recover adminAddress store now a s n).1 =
      VerifyResult.invalidNonce := by
  unfold verifyHandler
  simp [hv, hs, hn, hnone]

/-- C8.  A successful `POST /auth/verify` deletes the consumed
(address, nonce) entry, and after any further sequence of verify requests
the same nonce for that address is rejected with the invalid-nonce error:
verify operations never re-insert a nonce, so the same nonce is never
accepted twice. -/
theorem c8_nonce_single_use (recover : String → String → String)
    (adminAddress : String) (store : NonceStore) (now : Int)
    (a s n a' : String) (adm : Bool)
    (hsucc : (verifyHandler recover adminAddress store now a s n).1 =
      VerifyResult.ok a' adm) :
    (verifyHandler recover adminAddress store now a s n).2
      (jsToLowerCase a) = none ∧
    ∀ (reqs : List VerifyReq) (now' : Int) (s' : String), s' ≠ "" →
      (verifyHandler recover adminAddress
          (runVerifies recover adminAddress reqs
            ((verifyHandler recover adminAddress store now a s n).2))
          now' a s' n).1 = VerifyResult.invalidNonce := by
  obtain ⟨hv, hs, hn, hdel⟩ :=
    verify_ok_spec recover adminAddress store now a s n a' adm hsucc
  refine ⟨hdel, fun reqs now' s' hs' => ?_⟩
  exact verify_none_invalidNonce recover adminAddress _ now' a s' n hv hs' hn
    (runVerifies_none recover adminAddress reqs _ _ hdel)

/-- Concrete all-lowercase address for the C8 witness. -/
def addressW : String := "0xaaaaaaaaaaaaaaaaaaaaaaaaaaaaaaaaaaaaaaaa"

/-- Signature recovery that attributes every signature to `addressW`. -/
def recoverW : String → String → String := fun _ _ => addressW

/-- Nonce store holding nonce `n1` for `addressW`, issued at 1000. -/
def nonceStoreW : NonceStore :=
  fun k => if k = addressW then some ⟨"n1", 1000⟩ else none

/-- Witness for `c8_nonce_single_use`: a concrete successful verify, after
which replaying the same nonce is rejected as invalid. -/
theorem c8_nonce_single_use_witness :
    (verifyHandler recoverW "0xad" nonceStoreW 2000 addressW "sig" "n1").1 =
      VerifyResult.ok addressW false ∧
    ("sig2" : String) ≠ "" ∧
    (verifyHandler recoverW "0xad"
        (runVerifies recoverW "0xad" []
          ((verifyHandler recoverW "0xad" nonceStoreW 2000 addressW "sig"
            "n1").2))
        9000 addressW "sig2" "n1").1 = VerifyResult.invalidNonce := by
  refine ⟨by decide, by decide, ?_⟩
  exact (c8_nonce_single_use recoverW "0xad" nonceStoreW 2000 addressW "sig"
    "n1" addressW false (by decide)).2 [] 9000 "sig2" (by decide)

/-- `Math.ceil(x / d)` for a non-negative numerator, as used in the
cooldown error messages. -/
def jsCeilPosDiv (x : Int) (d : Nat) : Nat := (x.toNat + (d - 1)) / d

/-- Overrides passed to the contract write call: `gasLimit` and `gasPrice`,
`none` when the call is made without that override. -/
structure SubmittedTx where
  gasLimit : Option Nat
  gasPrice : Option Nat
deriving DecidableEq

deriving instance DecidableEq for Except

/-- Outcome of a claim write: the overrides of the submitted transaction
(`none` when no transaction was ever submitted) and the returned value or
thrown error message. -/
structure ClaimTrace where
  submitted : Option SubmittedTx
  result : Except String String
deriving DecidableEq

/-- The external transaction collaborators for one claim attempt: the gas
estimation call, the contract write call (returning the transaction hash or
throwing), and `tx.wait()` (throwing, resolving to `null`, or resolving to
a receipt whose hash is given). -/
structure TxEnv where
  gasEstimate : Except String Nat
  submitResult : Except String String
  waitResult : Except String (Option String)

namespace BlockchainService

/-- `BlockchainService.claimEth` (src/src/services/blockchain.ts):
blacklist and 24h-cooldown guards, gas estimation, submission of
`claimEthFor` with `gasLimit = estimate * 120n / 100n` and a 20 gwei gas
price, then `tx.wait()`; a `null` receipt throws
`Transaction failed to confirm`.  Every error of the inner try block is
wrapped as `Gas estimation failed: ...` and the outer catch wraps it again
as `ETH claim failed: ...`. -/
def claimEth (chain : FaucetContractState) (now : Int) (env : TxEnv)
    (recipientAddress : String) : ClaimTrace :=
  if chain.blacklisted recipientAddress then
    ⟨none, Except.error "ETH claim failed: Address is blacklisted"⟩
  else
    if chain.lastEthClaimTime recipientAddress ≠ 0 ∧
        now - (chain.lastEthClaimTime recipientAddress : Int) < 86400 then
      ⟨none, Except.error ("ETH claim failed: Cooldown active. Please wait " ++
        toString (jsCeilPosDiv
          (86400 - (now - (chain.lastEthClaimTime recipientAddress : Int)))
          3600) ++ " hours")⟩
    else
      match env.gasEstimate with
      | Except.error m =>
        ⟨none, Except.error ("ETH claim failed: Gas estimation failed: " ++ m)⟩
      | Except.ok gasEstimate =>
        match env.submitResult with
        | Except.error m =>
          ⟨none, Except.error ("ETH claim failed: Gas estimation failed: " ++ m)⟩
        | Except.ok _ =>
          match env.waitResult with
          | Except.error m =>
            ⟨some ⟨some (gasEstimate * 120 / 100), some 20000000000⟩,
              Except.error ("ETH claim failed: Gas estimation failed: " ++ m)⟩
          | Except.ok none =>
            ⟨some ⟨some (gasEstimate * 120 / 100), some 20000000000⟩,
              Except.error
              "ETH claim failed: Gas estimation failed: Transaction failed to confirm"⟩
          | Except.ok (some receiptHash) =>
            ⟨some ⟨some (gasEstimate * 120 / 100), some 20000000000⟩,
              Except.ok receiptHash⟩

/-- `BlockchainService.claimToken` (src/src/services/blockchain.ts):
blacklist, supported-token and per-token cooldown guards, then submission
of `claimTokenFor` with NO gas estimation and NO overrides, then
`tx.wait()`; a `null` receipt throws `Transaction failed to confirm`. -/
def claimToken (chain : FaucetContractState) (now : Int) (env : TxEnv)
    (recipientAddress tokenAddress : String) : ClaimTrace :=
  if chain.blacklisted recipientAddress then
    ⟨none, Except.error "Token claim failed: Address is blacklisted"⟩
  else
    if !(chain.supportedTokens tokenAddress).2.2 then
      ⟨none, Except.error "Token claim failed: Token not supported"⟩
    else
      if chain.lastClaimTime recipientAddress tokenAddress ≠ 0 ∧
          now - (chain.lastClaimTime recipientAddress tokenAddress : Int) <
            ((chain.supportedTokens tokenAddress).2.1 : Int) then
        ⟨none, Except.error ("Token claim failed: Cooldown active. Please wait " ++
          toString (jsCeilPosDiv
            (((chain.supportedTokens tokenAddress).2.1 : Int) -
              (now - (chain.lastClaimTime recipientAddress tokenAddress : Int)))
            3600) ++ " hours")⟩
      else
        match env.submitResult with
        | Except.error m =>
          ⟨none, Except.error ("Token claim failed: " ++ m)⟩
        | Except.ok _ =>
          match env.waitResult with
          | Except.error m =>
            ⟨some ⟨none, none⟩, Except.error ("Token claim failed: " ++ m)⟩
          | Except.ok none =>
            ⟨some ⟨none, none⟩,
              Except.error "Token claim failed: Transaction failed to confirm"⟩
          | Except.ok (some receiptHash) =>
            ⟨some ⟨none, none⟩, Except.ok receiptHash⟩

end BlockchainService

/-- JS `error.message || 'Transaction failed'` fallback of the serverless
catch blocks. -/
def errorMessageOrFallback (m : String) : String :=
  if m = "" then "Transaction failed" else m

namespace ServerlessBlockchainService

/-- `ServerlessBlockchainService.claimEth` (serverless blockchain service):
address validation, blacklist guard, `canClaimEth` cooldown guard, then
`claimEthFor` with NO gas estimation and NO overrides, then `tx.wait()`
whose resolved value is ignored — a `null` receipt is still reported as
success with `tx.hash`. -/
def claimEth (chain : FaucetContractState) (now : Int) (env : TxEnv)
    (recipientAddress : String) : ClaimTrace :=
  if isHexAddress recipientAddress = false then
    ⟨none, Except.error "Invalid recipient address"⟩
  else if chain.blacklisted recipientAddress then
    ⟨none, Except.error "Address is blacklisted"⟩
  else
    if (canClaimEth chain now recipientAddress).canClaim = false then
      ⟨none, Except.error ("Cooldown active. Try again in " ++
        toString (jsCeilPosDiv
          ((canClaimEth chain now recipientAddress).remainingTime.getD 0) 60) ++
        " minutes")⟩
    else
      match env.submitResult with
      | Except.error m => ⟨none, Except.error (errorMessageOrFallback m)⟩
      | Except.ok txHash =>
        match env.waitResult with
        | Except.error m =>
          ⟨some ⟨none, none⟩, Except.error (errorMessageOrFallback m)⟩
        | Except.ok _ => ⟨some ⟨none, none⟩, Except.ok txHash⟩

/-- `ServerlessBlockchainService.claimToken` (serverless blockchain
service): address validation, blacklist, `active` flag and `canClaimToken`
cooldown guards, then `claimTokenFor` with NO gas estimation and NO
overrides; as with the serverless ETH claim, a `null` receipt is success. -/
def claimToken (chain : FaucetContractState) (now : Int) (env : TxEnv)
    (recipientAddress tokenAddress : String) : ClaimTrace :=
  if !(isHexAddress recipientAddress && isHexAddress tokenAddress) then
    ⟨none, Except.error "Invalid address provided"⟩
  else if chain.blacklisted recipientAddress then
    ⟨none, Except.error "Address is blacklisted"⟩
  else if !(chain.supportedTokens tokenAddress).2.2 then
    ⟨none, Except.error "Token not supported"⟩
  else
    if (canClaimToken chain now recipientAddress tokenAddress).canClaim =
        false then
      ⟨none, Except.error ("Cooldown active. Try again in " ++
        toString (jsCeilPosDiv
          ((canClaimToken chain now recipientAddress
            tokenAddress).remainingTime.getD 0) 60) ++ " minutes")⟩
    else
      match env.submitResult with
      | Except.error m => ⟨none, Except.error (errorMessageOrFallback m)⟩
      | Except.ok txHash =>
        match env.waitResult with
        | Except.error m =>
          ⟨some ⟨none, none⟩, Except.error (errorMessageOrFallback m)⟩
        | Except.ok _ => ⟨some ⟨none, none⟩, Except.ok txHash⟩

end ServerlessBlockchainService

/-- Fully permissive contract state: nobody blacklisted, no prior claims,
every token active with a 3600s cooldown. -/
def chainOpen : FaucetContractState :=
  ⟨fun _ => false, fun _ => 0, fun _ _ => 0, fun _ => (5, 3600, true)⟩

/-- Happy-path transaction environment: estimate 100000 gas, submission
returns hash `0xtx`, confirmation receipt present. -/
def envOk : TxEnv :=
  ⟨Except.ok 100000, Except.ok "0xtx", Except.ok (some "0xtx")⟩

/-- Environment where `tx.wait()` resolves to `null`. -/
def envNullReceipt : TxEnv :=
  ⟨Except.ok 100000, Except.ok "0xtx", Except.ok none⟩

/-- C4, counterexample.  Not every claim write estimates gas with a +20%
margin: `BlockchainService.claimToken` and the serverless ETH claim submit
their transaction with no gas overrides at all, and the serverless ETH
claim even reports success when the confirmation receipt is `null`. -/
theorem c4_counterexample :
    (BlockchainService.claimToken chainOpen 1000000 envOk addressW
      "0xtt").submitted = some ⟨none, none⟩ ∧
    (ServerlessBlockchainService.claimEth chainOpen 1000000 envOk
      addressW).submitted = some ⟨none, none⟩ ∧
    (ServerlessBlockchainService.claimEth chainOpen 1000000 envNullReceipt
      addressW).result = Except.ok "0xtx" := by
  refine ⟨by decide, by decide, by decide⟩

/-- C4, amended.  Only `BlockchainService.claimEth` estimates gas and
applies the fixed +20% margin (`estimate * 120n / 100n`, 20 gwei gas
price); `BlockchainService.claimToken` and both serverless claim writes
submit with no overrides.  All variants block on `tx.wait()`;
`BlockchainService` reports a `null` receipt as the distinct
`Transaction failed to confirm` error, while the serverless variant
reports success with the submission hash. -/
theorem c4_gas_margin_and_confirmation :
    (∀ (chain : FaucetContractState) (now : Int) (env : TxEnv) (a : String)
      (g : Nat), env.gasEstimate = Except.ok g →
      (BlockchainService.claimEth chain now env a).submitted = none ∨
      (BlockchainService.claimEth chain now env a).submitted =
        some ⟨some (g * 120 / 100), some 20000000000⟩) ∧
    (∀ (chain : FaucetContractState) (now : Int) (env : TxEnv) (a t : String),
      (BlockchainService.claimToken chain now env a t).submitted = none ∨
      (BlockchainService.claimToken chain now env a t).submitted =
        some ⟨none, none⟩) ∧
    (∀ (chain : FaucetContractState) (now : Int) (env : TxEnv) (a : String),
      (ServerlessBlockchainService.claimEth chain now env a).submitted =
        none ∨
      (ServerlessBlockchainService.claimEth chain now env a).submitted =
        some ⟨none, none⟩) ∧
    (∀ (chain : FaucetContractState) (now : Int) (env : TxEnv) (a t : String),
      (ServerlessBlockchainService.claimToken chain now env a t).submitted =
        none ∨
      (ServerlessBlockchainService.claimToken chain now env a t).submitted =
        some ⟨none, none⟩) ∧
    (∀ (chain : FaucetContractState) (now : Int) (env : TxEnv) (a : String),
      env.waitResult = Except.ok none →
      (BlockchainService.claimEth chain now env a).submitted ≠ none →
      (BlockchainService.claimEth chain now env a).result = Except.error
        "ETH claim failed: Gas estimation failed: Transaction failed to confirm") ∧
    (∀ (chain : FaucetContractState) (now : Int) (env : TxEnv) (a t : String),
      env.waitResult = Except.ok none →
      (BlockchainService.claimToken chain now env a t).submitted ≠ none →
      (BlockchainService.claimToken chain now env a t).result = Except.error
        "Token claim failed: Transaction failed to confirm") ∧
    (∀ (chain : FaucetContractState) (now : Int) (env : TxEnv) (a h : String),
      env.submitResult = Except.ok h → env.waitResult = Except.ok none →
      (ServerlessBlockchainService.claimEth chain now env a).submitted ≠
        none →
      (ServerlessBlockchainService.claimEth chain now env a).result =
        Except.ok h) := by
  refine ⟨?_, ?_, ?_, ?_, ?_, ?_, ?_⟩
  · intro chain now env a g hg
    unfold BlockchainService.claimEth
    rw [hg]
    (repeat' split) <;> simp_all
  · intro chain now env a t
    unfold BlockchainService.claimToken
    (repeat' split) <;> simp_all
  · intro chain now env a
    unfold ServerlessBlockchainService.claimEth
    (repeat' split) <;> simp_all
  · intro chain now env a t
    unfold ServerlessBlockchainService.claimToken
    (repeat' split) <;> simp_all
  · intro chain now env a hw
    unfold BlockchainService.claimEth
    rw [hw]
    (repeat' split) <;> simp_all
  · intro chain now env a t hw
    unfold BlockchainService.claimToken
    rw [hw]
    (repeat' split) <;> simp_all
  · intro chain now env a h hs hw
    unfold ServerlessBlockchainService.claimEth
    rw [hs, hw]
    (repeat' split) <;> simp_all

/-- Witness for `c4_gas_margin_and_confirmation` on the happy-path and
null-receipt environments. -/
theorem c4_gas_margin_and_confirmation_witness :
    (envOk.gasEstimate = Except.ok 100000 ∧
      ((BlockchainService.claimEth chainOpen 1000000 envOk
          addressW).submitted = none ∨
        (BlockchainService.claimEth chainOpen 1000000 envOk
          addressW).submitted =
          some ⟨some (100000 * 120 / 100), some 20000000000⟩)) ∧
    (envNullReceipt.waitResult = Except.ok none ∧
      (BlockchainService.claimToken chainOpen 1000000 envNullReceipt addressW
        "0xtt").submitted ≠ none ∧
      (BlockchainService.claimToken chainOpen 1000000 envNullReceipt addressW
        "0xtt").result = Except.error
        "Token claim failed: Transaction failed to confirm") := by
  refine ⟨⟨rfl, ?_⟩, rfl, by decide, ?_⟩
  · exact c4_gas_margin_and_confirmation.1 chainOpen 1000000 envOk addressW
      100000 rfl
  · exact c4_gas_margin_and_confirmation.2.2.2.2.2.1 chainOpen 1000000
      envNullReceipt addressW "0xtt" rfl (by decide)

/-- `config.rateLimit` values consumed by the faucet claim route. -/
structure RateLimitConfig where
  dailyClaimLimit : Nat
  window : Int
deriving DecidableEq

/-- Entry of the module-level `dailyClaims` map
(src/src/routes/auth.ts, faucet routes). -/
structure DailyClaimEntry where
  count : Nat
  lastClaim : Int
deriving DecidableEq

/-- The `dailyClaims` map, keyed by `lowercasedAddress:today`. -/
def DailyClaims : Type := String → Option DailyClaimEntry

/-- Response branches of the fastify `POST /claim` handler. -/
inductive FaucetClaimResponse
  | invalidAddress
  | dailyLimitExceeded (retryAfter : Nat)
  | cooldownActive (retryAfter : Nat)
  | invalidToken
  | txFailed (message : String)
  | success (txHash tokenAddress symbol amount : String) (timestamp : Int)
deriving DecidableEq

/-- The fastify `POST /claim` handler (src/src/routes/auth.ts): address
validation, the in-memory `dailyClaims` daily-limit and cooldown gates
(keyed by `lowercased-address:today`), registry lookup of the target token,
the blockchain claim call (ETH for a missing or zero token address), and on
success the `dailyClaims` update and history append.  `nowMs` is
`Date.now()`; the blockchain service sees `Math.floor(nowMs / 1000)`. -/
def faucetClaimHandler (cfg : RateLimitConfig) (chain : FaucetContractState)
    (env : TxEnv) (nowMs : Int) (today : String) (st : ClaimStore)
    (daily : DailyClaims) (address : String) (tokenAddress : Option String) :
    FaucetClaimResponse × ClaimStore × DailyClaims :=
  if isHexAddress address = false then
    (FaucetClaimResponse.invalidAddress, st, daily)
  else
    let claimKey := jsToLowerCase address ++ ":" ++ today
    let userClaims := (daily claimKey).getD ⟨0, 0⟩
    if cfg.dailyClaimLimit ≤ userClaims.count then
      (FaucetClaimResponse.dailyLimitExceeded 86400, st, daily)
    else if nowMs - userClaims.lastClaim < cfg.window then
      (FaucetClaimResponse.cooldownActive
        (jsCeilPosDiv (cfg.window - (nowMs - userClaims.lastClaim)) 1000),
        st, daily)
    else
      let targetAddress := tokenAddress.getD zeroAddress
      match ClaimDataService.getToken st (jsToLowerCase targetAddress) with
      | none => (FaucetClaimResponse.invalidToken, st, daily)
      | some tokenInfo =>
        match (match tokenAddress with
          | none => BlockchainService.claimEth chain (Int.ediv nowMs 1000) env
              address
          | some t =>
            if t = zeroAddress then
              BlockchainService.claimEth chain (Int.ediv nowMs 1000) env
                address
            else
              BlockchainService.claimToken chain (Int.ediv nowMs 1000) env
                address t).result with
        | Except.error m => (FaucetClaimResponse.txFailed m, st, daily)
        | Except.ok txHash =>
          (FaucetClaimResponse.success txHash targetAddress tokenInfo.symbol
              tokenInfo.amount nowMs,
            ClaimDataService.addClaim st address
              ⟨nowMs, targetAddress, tokenInfo.amount, txHash⟩,
            fun k => if k = claimKey then
                some ⟨userClaims.count + 1, nowMs⟩
              else daily k)

/-- Response branches of the serverless `POST /faucet/claim/eth` handler. -/
inductive ServerlessClaimOutcome
  | addressRequired
  | invalidAddressFormat
  | cooldown (remainingTime : Option Int)
  | txFailed (error : String)
  | success (txHash amount : String)
deriving DecidableEq

/-- The serverless `POST /faucet/claim/eth` handler (src/api/server.ts):
body/address validation, the `canClaimEth` contract gate, the claim
execution, and on success the history append.  `ethAmount` is the string
obtained from `getEthAmount()`. -/
def serverlessEthClaimHandler (chain : FaucetContractState) (now nowMs : Int)
    (env : TxEnv) (ethAmount : String) (st : ServerlessClaimStore)
    (body : Option String) : ServerlessClaimOutcome × ServerlessClaimStore :=
  match body with
  | none => (ServerlessClaimOutcome.addressRequired, st)
  | some address =>
    if ServerlessClaimDataService.validateAddress address = false then
      (ServerlessClaimOutcome.invalidAddressFormat, st)
    else if (ServerlessBlockchainService.canClaimEth chain now
        address).canClaim = false then
      (ServerlessClaimOutcome.cooldown
        (ServerlessBlockchainService.canClaimEth chain now
          address).remainingTime, st)
    else
      match (ServerlessBlockchainService.claimEth chain now env
          address).result with
      | Except.error e => (ServerlessClaimOutcome.txFailed e, st)
      | Except.ok txHash =>
        (ServerlessClaimOutcome.success txHash ethAmount,
          ServerlessClaimDataService.addClaim st address
            ⟨nowMs, zeroAddress, ethAmount, txHash, ClaimType.ETH⟩)

/-- Rate-limit config for the C1 counterexample: one claim per day,
60s window. -/
def cfgW : RateLimitConfig := ⟨1, 60000⟩

/-- Faucet-route claim store with the zero address registered as ETH. -/
def faucetStoreW : ClaimStore :=
  ClaimDataService.addToken ⟨fun _ => [], fun _ => none⟩ zeroAddress
    ⟨"ETH", "Ethereum", "0.1", 18⟩

/-- Empty daily-claims map. -/
def dailyNoneW : DailyClaims := fun _ => none

/-- Daily-claims map that already counts one claim today for `addressW`
(with an old enough `lastClaim` to pass the window check). -/
def dailyOneW : DailyClaims :=
  fun k => if k = jsToLowerCase addressW ++ ":" ++ "Mon Jan 01 2026" then
      some ⟨1, 0⟩
    else none

/-- C1, counterexample.  Two runs of the fastify `POST /claim` handler with
the identical, fully eligible contract state and transaction environment:
with an empty in-memory `dailyClaims` map the claim succeeds, with an
in-memory count at the daily limit it is refused with a 429 — so the
decision IS gated by the in-memory claim bookkeeping in this handler. -/
theorem c1_counterexample :
    (faucetClaimHandler cfgW chainOpen envOk 1700000000000 "Mon Jan 01 2026"
        faucetStoreW dailyNoneW addressW none).1 =
      FaucetClaimResponse.success "0xtx" zeroAddress "ETH" "0.1"
        1700000000000 ∧
    (faucetClaimHandler cfgW chainOpen envOk 1700000000000 "Mon Jan 01 2026"
        faucetStoreW dailyOneW addressW none).1 =
      FaucetClaimResponse.dailyLimitExceeded 86400 := by
  refine ⟨by decide, by decide⟩

/-- C1, amended.  The serverless ETH claim handler derives its
refuse/allow decision from the contract alone — its response is identical
for any two in-memory history stores — while the fastify `POST /claim`
handler is additionally gated by the in-memory `dailyClaims` map: whenever
the stored count for the address's day key has reached the daily limit it
refuses with a 429 before consulting the contract. -/
theorem c1_eligibility_authority :
    (∀ (chain : FaucetContractState) (now nowMs : Int) (env : TxEnv)
      (ethAmount : String) (s1 s2 : ServerlessClaimStore)
      (body : Option String),
      (serverlessEthClaimHandler chain now nowMs env ethAmount s1 body).1 =
      (serverlessEthClaimHandler chain now nowMs env ethAmount s2 body).1) ∧
    (∀ (cfg : RateLimitConfig) (chain : FaucetContractState) (env : TxEnv)
      (nowMs : Int) (today : String) (st : ClaimStore) (daily : DailyClaims)
      (address : String) (t : Option String) (e : DailyClaimEntry),
      isHexAddress address = true →
      daily (jsToLowerCase address ++ ":" ++ today) = some e →
      cfg.dailyClaimLimit ≤ e.count →
      (faucetClaimHandler cfg chain env nowMs today st daily address t).1 =
        FaucetClaimResponse.dailyLimitExceeded 86400) := by
  constructor
  · intro chain now nowMs env ethAmount s1 s2 body
    unfold serverlessEthClaimHandler
    (repeat' split) <;> simp_all
  · intro cfg chain env nowMs today st daily address t e hv hd hc
    unfold faucetClaimHandler
    simp [hv, hd, hc]

/-- Witness for `c1_eligibility_authority` at the saturated daily map. -/
theorem c1_eligibility_authority_witness :
    isHexAddress addressW = true ∧
    dailyOneW (jsToLowerCase addressW ++ ":" ++ "Mon Jan 01 2026") =
      some ⟨1, 0⟩ ∧
    cfgW.dailyClaimLimit ≤ (1 : Nat) ∧
    (faucetClaimHandler cfgW chainOpen envOk 1700000000000 "Mon Jan 01 2026"
        faucetStoreW dailyOneW addressW none).1 =
      FaucetClaimResponse.dailyLimitExceeded 86400 := by
  refine ⟨by decide, by decide, by decide, ?_⟩
  exact c1_eligibility_authority.2 cfgW chainOpen envOk 1700000000000
    "Mon Jan 01 2026" faucetStoreW dailyOneW addressW none ⟨1, 0⟩ (by decide)
    (by decide) (by decide)

/-- Token sub-object of a formatted serverless history entry. -/
structure FormattedToken where
  address : String
  symbol : String
  name : String
deriving DecidableEq

/-- Shape produced by `ServerlessClaimDataService.formatClaimResponse`. -/
structure FormattedClaim where
  timestamp : Int
  type : ClaimType
  amount : String
  txHash : String
  token : Option FormattedToken
deriving DecidableEq

/-- `ServerlessClaimDataService.formatClaimResponse`: a token sub-object
only for TOKEN-typed claims, with `UNKNOWN` fallbacks. -/
def formatClaimResponse (claim : ServerlessClaimEntry)
    (tokenInfo : Option TokenInfo) : FormattedClaim :=
  ⟨claim.timestamp, claim.type, claim.amount, claim.txHash,
    if claim.type = ClaimType.TOKEN then
      some ⟨claim.tokenAddress, (tokenInfo.map fun i => i.symbol).getD "UNKNOWN",
        (tokenInfo.map fun i => i.name).getD "Unknown Token"⟩
    else none⟩

/-- Comparator of the fastify history route,
`(a, b) => b.timestamp - a.timestamp`: `x` may precede `y` exactly when
`y.timestamp ≤ x.timestamp` (descending order). -/
def newestFirst (x y : ClaimHistoryEntry) : Bool :=
  decide (y.timestamp ≤ x.timestamp)

/-- The fastify `GET /history/:address` handler (src/src/routes/auth.ts):
address validation, then the user's claims sorted newest first together
with their count. -/
def faucetHistoryHandler (st : ClaimStore) (address : String) :
    Except String (List ClaimHistoryEntry × Nat) :=
  if isHexAddress address = false then Except.error "Invalid Address"
  else
    Except.ok ((ClaimDataService.getUserClaims st address).mergeSort
        newestFirst,
      (ClaimDataService.getUserClaims st address).length)

/-- The serverless `GET /faucet/history/:address` handler
(src/api/server.ts): address validation, then the user's claims in stored
order, each formatted, together with the user stats — no sorting. -/
def serverlessHistoryHandler (st : ServerlessClaimStore) (address : String) :
    Except String (List FormattedClaim ×
      ServerlessClaimDataService.UserStats) :=
  if ServerlessClaimDataService.validateAddress address = false then
    Except.error "Invalid address format"
  else
    Except.ok ((ServerlessClaimDataService.getUserClaims st address).map
        fun claim => formatClaimResponse claim
          (if claim.type = ClaimType.TOKEN then
            ServerlessClaimDataService.getToken st claim.tokenAddress
          else none),
      ServerlessClaimDataService.getUserStats st address)

/-- Serverless store for the C6 counterexample: two ETH claims for
`addressW`, appended oldest first (timestamps 1000 then 5000). -/
def serverlessStoreH : ServerlessClaimStore :=
  ⟨fun k => if k = addressW then
      [⟨1000, zeroAddress, "0.1", "0xh1", ClaimType.ETH⟩,
       ⟨5000, zeroAddress, "0.1", "0xh2", ClaimType.ETH⟩]
    else [], fun _ => none⟩

/-- C6, counterexample.  The serverless history endpoint returns the two
stored claims in append order — timestamps `[1000, 5000]`, oldest first —
so its output is not ordered newest first. -/
theorem c6_counterexample :
    serverlessHistoryHandler serverlessStoreH addressW =
      Except.ok ([⟨1000, ClaimType.ETH, "0.1", "0xh1", none⟩,
          ⟨5000, ClaimType.ETH, "0.1", "0xh2", none⟩],
        ⟨2, 2, 0, some 5000⟩) ∧
    ¬ List.Pairwise (fun x y : FormattedClaim => y.timestamp ≤ x.timestamp)
      [⟨1000, ClaimType.ETH, "0.1", "0xh1", none⟩,
        ⟨5000, ClaimType.ETH, "0.1", "0xh2", none⟩] := by
  constructor
  · decide
  · intro h
    have := (List.pairwise_cons.mp h).1 _ (List.mem_cons_self _ _)
    simp at this

/-- C6, amended.  The fastify `GET /history/:address` returns a
newest-first (descending-timestamp) permutation of the stored claims plus
their count; the serverless `GET /faucet/history/:address` returns the
stored claims in append (oldest-first) order, formatted, without any
sorting. -/
theorem c6_history_ordering (st : ClaimStore) (sst : ServerlessClaimStore)
    (a : String) (hv : isHexAddress a = true) :
    (∃ claims, faucetHistoryHandler st a =
        Except.ok (claims, (ClaimDataService.getUserClaims st a).length) ∧
      claims.Perm (ClaimDataService.getUserClaims st a) ∧
      List.Pairwise (fun x y : ClaimHistoryEntry =>
        y.timestamp ≤ x.timestamp) claims) ∧
    serverlessHistoryHandler sst a =
      Except.ok ((ServerlessClaimDataService.getUserClaims sst a).map
          fun claim => formatClaimResponse claim
            (if claim.type = ClaimType.TOKEN then
              ServerlessClaimDataService.getToken sst claim.tokenAddress
            else none),
        ServerlessClaimDataService.getUserStats sst a) := by
  constructor
  · refine ⟨(ClaimDataService.getUserClaims st a).mergeSort newestFirst,
      ?_, ?_, ?_⟩
    · simp [faucetHistoryHandler, hv]
    · exact List.mergeSort_perm _ _
    · have hs := @List.sorted_mergeSort ClaimHistoryEntry newestFirst
        (fun x y z h1 h2 => by
          simp only [newestFirst, decide_eq_true_eq] at h1 h2 ⊢
          omega)
        (fun x y => by
          simp only [newestFirst, Bool.or_eq_true, decide_eq_true_eq]
          omega)
        (ClaimDataService.getUserClaims st a)
      exact hs.imp fun h => by
        simpa [newestFirst] using h
  · simp [serverlessHistoryHandler, ServerlessClaimDataService.validateAddress,
      hv]

/-- Witness for `c6_history_ordering` on concrete stores holding claims for
`addressW`. -/
theorem c6_history_ordering_witness :
    isHexAddress addressW = true ∧
    (∃ claims, faucetHistoryHandler claimStoreW addressW =
        Except.ok (claims,
          (ClaimDataService.getUserClaims claimStoreW addressW).length) ∧
      claims.Perm (ClaimDataService.getUserClaims claimStoreW addressW) ∧
      List.Pairwise (fun x y : ClaimHistoryEntry =>
        y.timestamp ≤ x.timestamp) claims) ∧
    serverlessHistoryHandler serverlessStoreH addressW =
      Except.ok ((ServerlessClaimDataService.getUserClaims serverlessStoreH
          addressW).map
          fun claim => formatClaimResponse claim
            (if claim.type = ClaimType.TOKEN then
              ServerlessClaimDataService.getToken serverlessStoreH
                claim.tokenAddress
            else none),
        ServerlessClaimDataService.getUserStats serverlessStoreH addressW) := by
  refine ⟨by decide, ?_, ?_⟩
  · exact (c6_history_ordering claimStoreW serverlessStoreH addressW
      (by decide)).1
  · exact (c6_history_ordering claimStoreW serverlessStoreH addressW
      (by decide)).2
